import Mathlib

/-!
Verification development for the life-simulation crate (src/lib.rs, src/brain.rs,
src/spatial_grid.rs, src/constants.rs).

The Rust code is shallowly embedded over `ℝ` (f64 arithmetic is modelled as exact
real arithmetic; rounding is out of scope).  Each `Math::random()` draw is made an
explicit oracle parameter, so properties quantified over "all random outcomes"
become universally quantified theorems.  Stateful updates of the `Simulation`
struct become explicit state passing on a `World` record.

Fallibility is explicit: `Brain.process` models only the arithmetic of the
network (reads via `getD`, exact whenever the input slice has the declared 13
elements), while `Brain.processChecked` and `stepChecked` model the bounds
check of the Rust reads, returning `none` where the program panics.  The sensor
vector `step` assembles has only 11 entries, so every real tick with at least
one agent aborts inside `Brain::process` (see the C1 arity theorem); the
definitions continuing the agent phase past that call (`agentStep`, `stepF`)
describe code that executes only once that arity slip is repaired.
-/

open scoped Classical

namespace LifeSim

/-! ## Generic list helpers -/

theorem getD_set_self {α : Type} (l : List α) (i : ℕ) (a d : α) (h : i < l.length) :
    (l.set i a).getD i d = a := by
  simp [List.getD, List.getElem?_set_self', List.getElem?_eq_getElem, h]

theorem getD_set_ne {α : Type} (l : List α) (i j : ℕ) (a d : α) (h : i ≠ j) :
    (l.set i a).getD j d = l.getD j d := by
  simp [List.getD, List.getElem?_set_ne h]

theorem getD_replicate {α : Type} (n j : ℕ) (a d : α) (h : j < n) :
    (List.replicate n a).getD j d = a := by
  simp [List.getD, List.getElem?_replicate, h]

theorem getD_of_le_length {α : Type} (l : List α) (j : ℕ) (d : α) (h : l.length ≤ j) :
    l.getD j d = d := by
  simp [List.getD, List.getElem?_eq_none h]

/-- Bound on `getD` from a bound on every member (the default must satisfy it too). -/
theorem getD_bound {α : Type} {l : List α} {P : α → Prop} (hm : ∀ x ∈ l, P x) (d : α) (hd : P d)
    (j : ℕ) : P (l.getD j d) := by
  by_cases h : j < l.length
  · rw [List.getD_eq_getElem _ _ h]
    exact hm _ (List.getElem_mem h)
  · rw [getD_of_le_length _ _ _ (le_of_not_lt h)]; exact hd

/-! ## Constants (src/constants.rs) -/

def AGENT_SPEED_MODIFIER : ℝ := 1.5
def TURN_SPEED : ℝ := 0.2
def FOOD_ENERGY : ℝ := 40.0
def ENERGY_CAP : ℝ := 200.0
def MOVE_COST : ℝ := 0.2
def WARRIOR_THRESHOLD : ℝ := 150.0
def BATTLE_COST : ℝ := 50.0
def EAT_RADIUS : ℝ := 10.0
def PREDATOR_KILL_RADIUS : ℝ := 15.0
def WHISKER_LEN : ℝ := 50.0

/-! ## Numeric primitives -/

/-- `f64::hypot` -/
noncomputable def hypot (x y : ℝ) : ℝ := Real.sqrt (x ^ 2 + y ^ 2)

/-- `f64::atan2`: `atan2 y x` is the argument of the point `(x, y)`. -/
noncomputable def atan2 (y x : ℝ) : ℝ := Complex.arg ⟨x, y⟩

/-- Rust saturating cast `f64 as usize` applied after `floor`: negative values clamp to 0. -/
noncomputable def floorUsize (x : ℝ) : ℕ := (⌊x⌋).toNat

/-! ## Brain (src/brain.rs)

Randomness is passed explicitly: a stream `ℕ → ℝ` stands for the successive
`Math::random()` results consumed by one closure. -/

structure Brain where
  weights_input : List ℝ
  weights_output : List ℝ
  biases : List ℝ
  last_inputs : List ℝ
  last_hidden : List ℝ
  last_outputs : List ℝ

def defaultBrain : Brain := ⟨[], [], [], [], [], []⟩

/-- `Brain::new`: 13*8 input weights, 8*3 output weights, 8+3 biases, each
`Math::random()*2 - 1`; zeroed activation buffers (13/8/3 wide). -/
noncomputable def Brain.new (r : ℕ → ℝ) : Brain :=
  { weights_input := (List.range (13 * 8)).map fun n => r n * 2 - 1
    weights_output := (List.range (8 * 3)).map fun n => r (13 * 8 + n) * 2 - 1
    biases := (List.range (8 + 3)).map fun n => r (13 * 8 + 8 * 3 + n) * 2 - 1
    last_inputs := List.replicate 13 0
    last_hidden := List.replicate 8 0
    last_outputs := List.replicate 3 0 }

/-- The `mix` closure of `Brain::crossover`: position-wise pick from `a` or `b`
(`Math::random() > 0.5` picks `a`), truncating at the shorter list like `zip`. -/
noncomputable def mixVec (r : ℕ → ℝ) : List ℝ → List ℝ → ℕ → List ℝ
  | w1 :: as, w2 :: bs, k => (if r k > 0.5 then w1 else w2) :: mixVec r as bs (k + 1)
  | _, _, _ => []

/-- `Brain::crossover`: fresh `Brain::new` scaffold whose three weight vectors are
replaced by element-wise mixes of the two parents. -/
noncomputable def Brain.crossover (b partner : Brain) (rn r1 r2 r3 : ℕ → ℝ) : Brain :=
  let child := Brain.new rn
  { child with
      weights_input := mixVec r1 b.weights_input partner.weights_input 0
      weights_output := mixVec r2 b.weights_output partner.weights_output 0
      biases := mixVec r3 b.biases partner.biases 0 }

/-- The `mutate_vec` closure of `Brain::mutate`: each element is perturbed by
`(Math::random()*2 - 1) * rate` when its selection draw is below 0.2. -/
noncomputable def mutateVec (sel pert : ℕ → ℝ) (rate : ℝ) : List ℝ → ℕ → List ℝ
  | [], _ => []
  | v :: rest, k =>
      (if sel k < 0.2 then v + (pert k * 2 - 1) * rate else v) :: mutateVec sel pert rate rest (k + 1)

/-- `Brain::mutate`: clone, then rebuild the three vectors with `mutate_vec`. -/
noncomputable def Brain.mutate (b : Brain) (rate : ℝ) (s1 p1 s2 p2 s3 p3 : ℕ → ℝ) : Brain :=
  { b with
      weights_input := mutateVec s1 p1 rate b.weights_input 0
      weights_output := mutateVec s2 p2 rate b.weights_output 0
      biases := mutateVec s3 p3 rate b.biases 0 }

/-- `Brain::process`.  The Rust body reads `inputs[j]` for `j = 0..13` and
`self.weights_input[i*13+j]`, `self.weights_output[i*8+j]`, `self.biases[..]`;
each read is modelled with `getD _ 0`.  (When `inputs` has fewer than 13 elements
the Rust code panics; see the sensor-arity theorem.)  Returns the brain with its
diagnostic buffers updated, together with the output vector. -/
noncomputable def Brain.process (b : Brain) (inputs : List ℝ) : Brain × List ℝ :=
  let hidden := (List.range 8).map fun i =>
    Real.tanh ((∑ j ∈ Finset.range 13, inputs.getD j 0 * b.weights_input.getD (i * 13 + j) 0)
      + b.biases.getD i 0)
  let outputs := (List.range 3).map fun i =>
    Real.tanh ((∑ j ∈ Finset.range 8, hidden.getD j 0 * b.weights_output.getD (i * 8 + j) 0)
      + b.biases.getD (8 + i) 0)
  ({ b with last_inputs := inputs, last_hidden := hidden, last_outputs := outputs }, outputs)

/-! ## Claims C5, C6, C9 (Brain algebra) -/

theorem mutateVec_zero (sel pert : ℕ → ℝ) :
    ∀ (l : List ℝ) (k : ℕ), mutateVec sel pert 0 l k = l
  | [], _ => rfl
  | v :: rest, k => by
      simp [mutateVec, mutateVec_zero sel pert rest (k + 1)]

/-- C5: `mutate` with `rate = 0` returns a brain whose `weights_input`,
`weights_output` and `biases` are element-for-element equal to the original's,
regardless of which elements the selection draws pick for perturbation. -/
theorem mutate_rate_zero_noop (b : Brain) (s1 p1 s2 p2 s3 p3 : ℕ → ℝ) :
    (b.mutate 0 s1 p1 s2 p2 s3 p3).weights_input = b.weights_input ∧
    (b.mutate 0 s1 p1 s2 p2 s3 p3).weights_output = b.weights_output ∧
    (b.mutate 0 s1 p1 s2 p2 s3 p3).biases = b.biases := by
  refine ⟨?_, ?_, ?_⟩ <;> simp [Brain.mutate, mutateVec_zero]

theorem mixVec_getD (r : ℕ → ℝ) :
    ∀ (a b : List ℝ) (k i : ℕ), i < a.length → a.length = b.length →
      (mixVec r a b k).getD i 0 = a.getD i 0 ∨ (mixVec r a b k).getD i 0 = b.getD i 0
  | [], _, _, i, hi, _ => absurd hi (by simp)
  | w1 :: as, [], _, _, _, hlen => by simp at hlen
  | w1 :: as, w2 :: bs, k, 0, _, _ => by
      by_cases h : r k > 0.5 <;> simp [mixVec, h]
  | w1 :: as, w2 :: bs, k, i + 1, hi, hlen => by
      have ih := mixVec_getD r as bs (k + 1) i (by simpa using hi) (by simpa using hlen)
      simpa [mixVec] using ih

/-- C6: with equal topologies, every weight and bias of `crossover`'s child equals
the corresponding element of parent `A` or of parent `B`, for every outcome of
the internal random draws — never an interpolated or fresh value. -/
theorem crossover_elements_from_parents (A B : Brain) (rn r1 r2 r3 : ℕ → ℝ)
    (hwi : A.weights_input.length = B.weights_input.length)
    (hwo : A.weights_output.length = B.weights_output.length)
    (hb : A.biases.length = B.biases.length) :
    (∀ i < A.weights_input.length,
      (A.crossover B rn r1 r2 r3).weights_input.getD i 0 = A.weights_input.getD i 0 ∨
      (A.crossover B rn r1 r2 r3).weights_input.getD i 0 = B.weights_input.getD i 0) ∧
    (∀ i < A.weights_output.length,
      (A.crossover B rn r1 r2 r3).weights_output.getD i 0 = A.weights_output.getD i 0 ∨
      (A.crossover B rn r1 r2 r3).weights_output.getD i 0 = B.weights_output.getD i 0) ∧
    (∀ i < A.biases.length,
      (A.crossover B rn r1 r2 r3).biases.getD i 0 = A.biases.getD i 0 ∨
      (A.crossover B rn r1 r2 r3).biases.getD i 0 = B.biases.getD i 0) := by
  refine ⟨fun i hi => ?_, fun i hi => ?_, fun i hi => ?_⟩ <;>
    simpa [Brain.crossover] using mixVec_getD _ _ _ 0 i hi (by assumption)

/-- Witness for C6 at concrete single-element parents. -/
theorem crossover_elements_from_parents_witness :
    (⟨[1], [2], [3], [], [], []⟩ : Brain).weights_input.length =
      (⟨[4], [5], [6], [], [], []⟩ : Brain).weights_input.length ∧
    ((Brain.crossover ⟨[1], [2], [3], [], [], []⟩ ⟨[4], [5], [6], [], [], []⟩
        (fun _ => 0) (fun _ => 0.7) (fun _ => 0.7) (fun _ => 0.7)).weights_input.getD 0 0 =
        (⟨[1], [2], [3], [], [], []⟩ : Brain).weights_input.getD 0 0 ∨
      (Brain.crossover ⟨[1], [2], [3], [], [], []⟩ ⟨[4], [5], [6], [], [], []⟩
        (fun _ => 0) (fun _ => 0.7) (fun _ => 0.7) (fun _ => 0.7)).weights_input.getD 0 0 =
        (⟨[4], [5], [6], [], [], []⟩ : Brain).weights_input.getD 0 0) := by
  refine ⟨rfl, ?_⟩
  exact (crossover_elements_from_parents ⟨[1], [2], [3], [], [], []⟩ ⟨[4], [5], [6], [], [], []⟩
    (fun _ => 0) (fun _ => 0.7) (fun _ => 0.7) (fun _ => 0.7) rfl rfl rfl).1 0 (by norm_num)

/-- C9: `Brain::process` is deterministic and randomness-free: two brains with
element-wise equal weight and bias vectors produce element-wise equal outputs on
the same arity-13 input vector. -/
theorem process_deterministic (b1 b2 : Brain) (ins : List ℝ)
    (hw : b1.weights_input = b2.weights_input)
    (ho : b1.weights_output = b2.weights_output)
    (hb : b1.biases = b2.biases) (_hlen : ins.length = 13) :
    (b1.process ins).2 = (b2.process ins).2 := by
  simp [Brain.process, hw, ho, hb]

/-- Witness for C9: brains differing only in diagnostic buffers give equal outputs. -/
theorem process_deterministic_witness :
    (List.replicate 13 (0 : ℝ)).length = 13 ∧
    ((⟨[1], [2], [3], [7], [], []⟩ : Brain).process (List.replicate 13 0)).2 =
      ((⟨[1], [2], [3], [8], [9], []⟩ : Brain).process (List.replicate 13 0)).2 := by
  refine ⟨by simp, ?_⟩
  exact process_deterministic ⟨[1], [2], [3], [7], [], []⟩ ⟨[1], [2], [3], [8], [9], []⟩
    (List.replicate 13 0) rfl rfl rfl (by simp)

/-! ## SpatialGrid (src/spatial_grid.rs) -/

structure SpatialGrid where
  cell_size : ℝ
  cols : ℕ
  rows : ℕ
  cells : List (List ℕ)

/-- `SpatialGrid::new`: `cols = ceil(width/cell_size) as usize`, likewise rows;
`cols*rows` empty buckets. -/
noncomputable def SpatialGrid.new (width height cell_size : ℝ) : SpatialGrid :=
  { cell_size := cell_size
    cols := (⌈width / cell_size⌉).toNat
    rows := (⌈height / cell_size⌉).toNat
    cells := List.replicate ((⌈width / cell_size⌉).toNat * (⌈height / cell_size⌉).toNat) [] }

/-- The flat bucket index `row * cols + col` used by insert, after the
saturating float-to-usize casts. -/
noncomputable def SpatialGrid.bucketIdx (g : SpatialGrid) (x y : ℝ) : ℕ :=
  floorUsize (y / g.cell_size) * g.cols + floorUsize (x / g.cell_size)

/-- `SpatialGrid::insert`: `col = (x/cell_size).floor() as usize` (the Rust
float-to-usize cast saturates, so negative values become 0); push `index` into
bucket `row*cols + col` when `col < cols && row < rows`, otherwise do nothing. -/
noncomputable def SpatialGrid.insert (g : SpatialGrid) (x y : ℝ) (index : ℕ) : SpatialGrid :=
  if floorUsize (x / g.cell_size) < g.cols ∧ floorUsize (y / g.cell_size) < g.rows then
    { g with cells := (g.cells.set (g.bucketIdx x y) (g.cells.getD (g.bucketIdx x y) [] ++ [index])) }
  else g

/-- Concatenation of `f` over a list, in order — the `neighbors.extend` loop shape. -/
def catMap (f : ℤ → List ℕ) : List ℤ → List ℕ
  | [] => []
  | a :: as => f a ++ catMap f as

theorem mem_catMap {f : ℤ → List ℕ} {x : ℕ} :
    ∀ {l : List ℤ}, x ∈ catMap f l ↔ ∃ a ∈ l, x ∈ f a
  | [] => by simp [catMap]
  | a :: as => by simp [catMap, mem_catMap (l := as)]

/-- `SpatialGrid::query`: the 3×3 block of buckets around `(x,y)`'s bucket, with
`dy` the outer loop; the bucket coordinate is an `i32` here, so negatives stay
negative (modelled as `ℤ`; the `i32` saturation bound is out of scope). -/
noncomputable def SpatialGrid.query (g : SpatialGrid) (x y : ℝ) : List ℕ :=
  let ci := ⌊x / g.cell_size⌋
  let ri := ⌊y / g.cell_size⌋
  catMap (fun dy => catMap (fun dx =>
    let c := ci + dx
    let r := ri + dy
    if 0 ≤ c ∧ c < (g.cols : ℤ) ∧ 0 ≤ r ∧ r < (g.rows : ℤ) then
      g.cells.getD (r * (g.cols : ℤ) + c).toNat []
    else []) [-1, 0, 1]) [-1, 0, 1]

/-! ## Claim C4 (out-of-range insert) -/

/-- The 10×10 grid used in concrete grid scenarios evaluates to a literal. -/
theorem newGrid_eq : SpatialGrid.new 100 100 10 = ⟨10, 10, 10, List.replicate 100 []⟩ := by
  have h : (⌈(100 : ℝ) / 10⌉ : ℤ) = 10 := by norm_num
  simp [SpatialGrid.new, h]

/-- C4 counterexample: the claim "`insert` with a bucket outside
`[0,cols)×[0,rows)` — including negative coordinates — leaves every bucket
unchanged" is false: at `x = -5` the saturating cast redirects the insert into
column 0.  Concretely, on a fresh 10×10-bucket grid with cell size 10,
`insert (-5) 5 42` pushes 42 into bucket 0 even though `⌊-5/10⌋ = -1` is outside
the range. -/
theorem insert_out_of_range_dropped_false :
    ¬ (∀ (g : SpatialGrid) (x y : ℝ) (index : ℕ),
        ¬ (0 ≤ ⌊x / g.cell_size⌋ ∧ ⌊x / g.cell_size⌋ < (g.cols : ℤ) ∧
           0 ≤ ⌊y / g.cell_size⌋ ∧ ⌊y / g.cell_size⌋ < (g.rows : ℤ)) →
        (g.insert x y index).cells = g.cells) := by
  intro h
  set g0 : SpatialGrid := ⟨10, 10, 10, List.replicate 100 []⟩ with hg0
  have hfx : (⌊(-5 : ℝ) / g0.cell_size⌋ : ℤ) = -1 := by
    rw [hg0]; norm_num
  have hfy : (⌊(5 : ℝ) / g0.cell_size⌋ : ℤ) = 0 := by
    rw [hg0]; norm_num
  have h2 := h g0 (-5) 5 42 (by rw [hfx]; norm_num)
  have hb : g0.bucketIdx (-5) 5 = 0 := by
    rw [SpatialGrid.bucketIdx, floorUsize, floorUsize, hfx, hfy]; rfl
  have h3 : (g0.insert (-5) 5 42).cells.getD 0 [] = [42] := by
    rw [SpatialGrid.insert, if_pos, hb]
    · have : (g0.cells.getD 0 []) = [] := getD_replicate 100 0 [] [] (by norm_num)
      simp only [this]
      exact getD_set_self _ 0 _ _ (by simp)
    · rw [floorUsize, floorUsize, hfx, hfy]
      exact ⟨by decide, by decide⟩
  rw [h2] at h3
  have h4 : (g0.cells.getD 0 []) = [] := getD_replicate 100 0 [] [] (by norm_num)
  rw [h4] at h3
  exact absurd h3 (by simp)

/-- C4 amended: an insert is dropped (all buckets unchanged) exactly when the
*saturated* bucket coordinates `(x/cell_size).floor() as usize` (negatives clamp
to 0) reach `cols` or `rows`; negative coordinates instead saturate into the
matching edge bucket and are inserted. -/
theorem insert_saturated_out_of_range_dropped (g : SpatialGrid) (x y : ℝ) (index : ℕ)
    (h : g.cols ≤ floorUsize (x / g.cell_size) ∨ g.rows ≤ floorUsize (y / g.cell_size)) :
    (g.insert x y index).cells = g.cells := by
  rw [SpatialGrid.insert, if_neg]
  rintro ⟨h1, h2⟩
  rcases h with h | h
  · exact absurd h1 (not_lt.mpr h)
  · exact absurd h2 (not_lt.mpr h)

/-- Witness for the amended C4: inserting at `x = 1000` on the 10×10 grid
(column 100 ≥ 10) leaves the buckets unchanged. -/
theorem insert_saturated_out_of_range_dropped_witness :
    ((SpatialGrid.new 100 100 10).cols ≤
        floorUsize (1000 / (SpatialGrid.new 100 100 10).cell_size) ∨
      (SpatialGrid.new 100 100 10).rows ≤
        floorUsize (5 / (SpatialGrid.new 100 100 10).cell_size)) ∧
    ((SpatialGrid.new 100 100 10).insert 1000 5 42).cells = (SpatialGrid.new 100 100 10).cells := by
  have h : (SpatialGrid.new 100 100 10).cols ≤
      floorUsize (1000 / (SpatialGrid.new 100 100 10).cell_size) := by
    norm_num [SpatialGrid.new, floorUsize]
  exact ⟨Or.inl h, insert_saturated_out_of_range_dropped _ _ _ _ (Or.inl h)⟩

/-! ## Claim C7 (insert/query 3×3 correctness) -/

theorem rowcol_unique {C c bc r br : ℤ} (h0c : 0 ≤ c) (hc : c < C) (h0b : 0 ≤ bc)
    (hb : bc < C) (h : r * C + c = br * C + bc) : c = bc ∧ r = br := by
  have hC : 0 < C := lt_of_le_of_lt h0c hc
  rcases lt_trichotomy r br with hlt | heq | hgt
  · exfalso
    have h1 : r + 1 ≤ br := by omega
    have h2 : (r + 1) * C ≤ br * C := mul_le_mul_of_nonneg_right h1 (le_of_lt hC)
    nlinarith
  · exact ⟨by rw [heq] at h; linarith, heq⟩
  · exfalso
    have h1 : br + 1 ≤ r := by omega
    have h2 : (br + 1) * C ≤ r * C := mul_le_mul_of_nonneg_right h1 (le_of_lt hC)
    nlinarith

theorem toNat_linear {r c : ℤ} (C : ℕ) (h0r : 0 ≤ r) (h0c : 0 ≤ c) :
    (r * (C : ℤ) + c).toNat = r.toNat * C + c.toNat := by
  have hr := Int.toNat_of_nonneg h0r
  have hc := Int.toNat_of_nonneg h0c
  rw [show r * (C : ℤ) + c = ((r.toNat * C + c.toNat : ℕ) : ℤ) by push_cast [hr, hc]; ring]
  exact Int.toNat_natCast _

theorem mem_ite_nil {P : Prop} [Decidable P] {l : List ℕ} {v : ℕ} :
    v ∈ (if P then l else []) ↔ P ∧ v ∈ l := by
  split <;> simp_all

/-- Membership in a query result, unfolded to the 3×3 offset search. -/
theorem mem_query_iff (g : SpatialGrid) (qx qy : ℝ) (v : ℕ) :
    v ∈ g.query qx qy ↔ ∃ dy ∈ ([-1, 0, 1] : List ℤ), ∃ dx ∈ ([-1, 0, 1] : List ℤ),
      (0 ≤ ⌊qx / g.cell_size⌋ + dx ∧ ⌊qx / g.cell_size⌋ + dx < (g.cols : ℤ) ∧
       0 ≤ ⌊qy / g.cell_size⌋ + dy ∧ ⌊qy / g.cell_size⌋ + dy < (g.rows : ℤ)) ∧
      v ∈ g.cells.getD
        ((⌊qy / g.cell_size⌋ + dy) * (g.cols : ℤ) + (⌊qx / g.cell_size⌋ + dx)).toNat [] := by
  simp only [SpatialGrid.query, mem_catMap, mem_ite_nil]

theorem insert_cell_size (g : SpatialGrid) (x y : ℝ) (index : ℕ) :
    (g.insert x y index).cell_size = g.cell_size := by
  rw [SpatialGrid.insert]; split <;> rfl

theorem insert_cols (g : SpatialGrid) (x y : ℝ) (index : ℕ) :
    (g.insert x y index).cols = g.cols := by
  rw [SpatialGrid.insert]; split <;> rfl

theorem insert_rows (g : SpatialGrid) (x y : ℝ) (index : ℕ) :
    (g.insert x y index).rows = g.rows := by
  rw [SpatialGrid.insert]; split <;> rfl

/-- C7: after an in-range `insert (x,y,id)` into a well-formed grid not already
holding `id`, a `query` from any point whose bucket is within Chebyshev distance
1 of the insert bucket returns a list containing `id`, and a `query` from any
point whose bucket is at distance at least 3 in some axis returns a list not
containing `id`. -/
theorem insert_query_3x3 (g : SpatialGrid) (x y : ℝ) (index : ℕ)
    (hwf : g.cells.length = g.rows * g.cols)
    (hc0 : 0 ≤ ⌊x / g.cell_size⌋) (hc1 : ⌊x / g.cell_size⌋ < (g.cols : ℤ))
    (hr0 : 0 ≤ ⌊y / g.cell_size⌋) (hr1 : ⌊y / g.cell_size⌋ < (g.rows : ℤ))
    (hfresh : ∀ b ∈ g.cells, index ∉ b) (qx qy : ℝ) :
    ((|⌊qx / g.cell_size⌋ - ⌊x / g.cell_size⌋| ≤ 1 ∧
      |⌊qy / g.cell_size⌋ - ⌊y / g.cell_size⌋| ≤ 1) →
        index ∈ (g.insert x y index).query qx qy) ∧
    ((3 ≤ |⌊qx / g.cell_size⌋ - ⌊x / g.cell_size⌋| ∨
      3 ≤ |⌊qy / g.cell_size⌋ - ⌊y / g.cell_size⌋|) →
        index ∉ (g.insert x y index).query qx qy) := by
  have hcn : ((⌊x / g.cell_size⌋).toNat : ℤ) = ⌊x / g.cell_size⌋ := Int.toNat_of_nonneg hc0
  have hrn : ((⌊y / g.cell_size⌋).toNat : ℤ) = ⌊y / g.cell_size⌋ := Int.toNat_of_nonneg hr0
  have hguard : floorUsize (x / g.cell_size) < g.cols ∧ floorUsize (y / g.cell_size) < g.rows := by
    rw [floorUsize, floorUsize]; omega
  have hcells : (g.insert x y index).cells =
      g.cells.set (g.bucketIdx x y) (g.cells.getD (g.bucketIdx x y) [] ++ [index]) := by
    rw [SpatialGrid.insert, if_pos hguard]
  have hKlin : g.bucketIdx x y =
      (⌊y / g.cell_size⌋ * (g.cols : ℤ) + ⌊x / g.cell_size⌋).toNat := by
    rw [SpatialGrid.bucketIdx, floorUsize, floorUsize, toNat_linear _ hr0 hc0]
  have hKlt : g.bucketIdx x y < g.cells.length := by
    rw [hwf, SpatialGrid.bucketIdx, floorUsize, floorUsize]
    have h1 : (⌊x / g.cell_size⌋).toNat < g.cols := by omega
    have h2 : (⌊y / g.cell_size⌋).toNat < g.rows := by omega
    calc (⌊y / g.cell_size⌋).toNat * g.cols + (⌊x / g.cell_size⌋).toNat
        < (⌊y / g.cell_size⌋).toNat * g.cols + g.cols := by omega
      _ = ((⌊y / g.cell_size⌋).toNat + 1) * g.cols := by ring
      _ ≤ g.rows * g.cols := Nat.mul_le_mul_right _ (by omega)
  constructor
  · rintro ⟨hnx, hny⟩
    rw [abs_le] at hnx hny
    rw [mem_query_iff, insert_cell_size, insert_cols, insert_rows, hcells]
    refine ⟨⌊y / g.cell_size⌋ - ⌊qy / g.cell_size⌋, by
        have : ⌊y / g.cell_size⌋ - ⌊qy / g.cell_size⌋ = -1 ∨
            ⌊y / g.cell_size⌋ - ⌊qy / g.cell_size⌋ = 0 ∨
            ⌊y / g.cell_size⌋ - ⌊qy / g.cell_size⌋ = 1 := by omega
        rcases this with h | h | h <;> simp [h],
      ⌊x / g.cell_size⌋ - ⌊qx / g.cell_size⌋, by
        have : ⌊x / g.cell_size⌋ - ⌊qx / g.cell_size⌋ = -1 ∨
            ⌊x / g.cell_size⌋ - ⌊qx / g.cell_size⌋ = 0 ∨
            ⌊x / g.cell_size⌋ - ⌊qx / g.cell_size⌋ = 1 := by omega
        rcases this with h | h | h <;> simp [h], ⟨by omega, by omega, by omega, by omega⟩, ?_⟩
    have he : ⌊qx / g.cell_size⌋ + (⌊x / g.cell_size⌋ - ⌊qx / g.cell_size⌋) =
        ⌊x / g.cell_size⌋ := by ring
    have he2 : ⌊qy / g.cell_size⌋ + (⌊y / g.cell_size⌋ - ⌊qy / g.cell_size⌋) =
        ⌊y / g.cell_size⌋ := by ring
    rw [he, he2, ← hKlin, getD_set_self _ _ _ _ hKlt]
    simp
  · rintro hfar hmem
    rw [mem_query_iff, insert_cell_size, insert_cols, insert_rows, hcells] at hmem
    obtain ⟨dy, hdy, dx, hdx, ⟨g1, g2, g3, g4⟩, hv⟩ := hmem
    by_cases hJK : ((⌊qy / g.cell_size⌋ + dy) * (g.cols : ℤ) +
        (⌊qx / g.cell_size⌋ + dx)).toNat = g.bucketIdx x y
    · rw [hKlin] at hJK
      have hJint : (⌊qy / g.cell_size⌋ + dy) * (g.cols : ℤ) + (⌊qx / g.cell_size⌋ + dx) =
          ⌊y / g.cell_size⌋ * (g.cols : ℤ) + ⌊x / g.cell_size⌋ := by
        have ha : 0 ≤ (⌊qy / g.cell_size⌋ + dy) * (g.cols : ℤ) + (⌊qx / g.cell_size⌋ + dx) := by
          have := mul_nonneg g3 (show (0 : ℤ) ≤ (g.cols : ℤ) by positivity)
          omega
        have hb : 0 ≤ ⌊y / g.cell_size⌋ * (g.cols : ℤ) + ⌊x / g.cell_size⌋ := by
          have := mul_nonneg hr0 (show (0 : ℤ) ≤ (g.cols : ℤ) by positivity)
          omega
        rw [← Int.toNat_of_nonneg ha, ← Int.toNat_of_nonneg hb, hJK]
      obtain ⟨hceq, hreq⟩ := rowcol_unique g1 g2 hc0 hc1 hJint
      have hdx3 : dx = -1 ∨ dx = 0 ∨ dx = 1 := by simpa using hdx
      have hdy3 : dy = -1 ∨ dy = 0 ∨ dy = 1 := by simpa using hdy
      rcases hfar with hf | hf
      · have : |⌊qx / g.cell_size⌋ - ⌊x / g.cell_size⌋| ≤ 1 := by
          rw [abs_le]; rcases hdx3 with h | h | h <;> omega
        omega
      · have : |⌊qy / g.cell_size⌋ - ⌊y / g.cell_size⌋| ≤ 1 := by
          rw [abs_le]; rcases hdy3 with h | h | h <;> omega
        omega
    · rw [getD_set_ne _ _ _ _ _ (fun he => hJK he.symm)] at hv
      exact getD_bound hfresh [] (by simp) _ hv

/-- Witness for C7 on the 10×10 grid: insert 7 at (55,55) — bucket (5,5); a query
at (55,55) (same bucket) contains 7 and a query at (5,5) (bucket (0,0), distance
5 in each axis) does not. -/
theorem insert_query_3x3_witness :
    (7 ∈ ((⟨10, 10, 10, List.replicate 100 []⟩ : SpatialGrid).insert 55 55 7).query 55 55) ∧
    (7 ∉ ((⟨10, 10, 10, List.replicate 100 []⟩ : SpatialGrid).insert 55 55 7).query 5 5) := by
  have hf1 : (⌊(55 : ℝ) / (⟨10, 10, 10, List.replicate 100 []⟩ : SpatialGrid).cell_size⌋ : ℤ)
      = 5 := by norm_num
  have hf2 : (⌊(5 : ℝ) / (⟨10, 10, 10, List.replicate 100 []⟩ : SpatialGrid).cell_size⌋ : ℤ)
      = 0 := by norm_num
  have h := insert_query_3x3 ⟨10, 10, 10, List.replicate 100 []⟩ 55 55 7
    (by simp) (by rw [hf1]; norm_num) (by rw [hf1]; norm_num)
    (by rw [hf1]; norm_num) (by rw [hf1]; norm_num)
    (by intro b hb; rw [List.eq_of_mem_replicate hb]; simp)
  refine ⟨(h 55 55).1 ⟨by rw [hf1]; norm_num, by rw [hf1]; norm_num⟩,
    (h 5 5).2 (Or.inl ?_)⟩
  rw [hf1, hf2]
  norm_num

/-! ## World state (src/lib.rs `Simulation`)

Only the fields `step` touches are modelled; view/zoom and the palette are
rendering-only. -/

structure World where
  positions : List (ℝ × ℝ)
  angles : List ℝ
  energies : List ℝ
  brains : List Brain
  colors : List String
  voices : List ℝ
  food : List (ℝ × ℝ)
  predators : List (ℝ × ℝ)
  rocks : List (ℝ × ℝ × ℝ)
  mud : List (ℝ × ℝ × ℝ)
  width : ℝ
  height : ℝ
  mutation_rate : ℝ
  predator_speed : ℝ
  reproduction_threshold : ℝ

/-- The `Math::random()` results one agent-slot update may consume, one field per
call site; streams `ℕ → ℝ` stand for the successive draws of one closure. -/
structure AgentOracle where
  foodR : ℝ × ℝ
  predR : ℝ × ℝ
  t1 : ℕ → ℝ
  t2 : ℕ → ℝ
  crossNew : ℕ → ℝ
  mix1 : ℕ → ℝ
  mix2 : ℕ → ℝ
  mix3 : ℕ → ℝ
  ms1 : ℕ → ℝ
  mp1 : ℕ → ℝ
  ms2 : ℕ → ℝ
  mp2 : ℕ → ℝ
  ms3 : ℕ → ℝ
  mp3 : ℕ → ℝ
  jit : ℝ × ℝ
  freshNew : ℕ → ℝ
  freshP : ℝ × ℝ

def unit01 (r : ℝ) : Prop := 0 ≤ r ∧ r < 1

/-- Every raw draw a theorem relies on lies in `[0,1)`, as `Math::random()` does. -/
structure AgentOracle.Valid (o : AgentOracle) : Prop where
  foodR1 : unit01 o.foodR.1
  foodR2 : unit01 o.foodR.2
  predR1 : unit01 o.predR.1
  predR2 : unit01 o.predR.2
  t1v : ∀ k, unit01 (o.t1 k)
  t2v : ∀ k, unit01 (o.t2 k)
  jit1 : unit01 o.jit.1
  jit2 : unit01 o.jit.2
  freshP1 : unit01 o.freshP.1
  freshP2 : unit01 o.freshP.2

/-- Sequential wall clamp: `if v < 0 { v = 0 }` then `if v > hi { v = hi }`. -/
noncomputable def clampCoord (hi v : ℝ) : ℝ :=
  if (if v < 0 then 0 else v) > hi then hi else (if v < 0 then 0 else v)

/-- The nearest-point scan (food and predators): iterate with a strict `<`
against the running best distance, remembering distance, bearing difference
`atan2(dy,dx) - my_angle`, and index. -/
noncomputable def scanNearest (mx my ma : ℝ) : List (ℝ × ℝ) → ℕ → ℝ × ℝ × ℕ → ℝ × ℝ × ℕ
  | [], _, st => st
  | (fx, fy) :: rest, k, st =>
      let d := hypot (fx - mx) (fy - my)
      if d < st.1 then scanNearest mx my ma rest (k + 1) (d, atan2 (fy - my) (fx - mx) - ma, k)
      else scanNearest mx my ma rest (k + 1) st

/-- Nearest-other-agent distance and heard volume: skip self; strict `<` for the
closest distance; voices within radius 100 weighted by `1 - dist/100`. -/
noncomputable def friendScan (pos : List (ℝ × ℝ)) (vo : List ℝ) (i : ℕ) (mx my : ℝ) : ℝ × ℝ :=
  (List.range pos.length).foldl (fun (st : ℝ × ℝ) j =>
    if j = i then st
    else
      let p := pos.getD j (0, 0)
      let d := hypot (p.1 - mx) (p.2 - my)
      ((if d < st.1 then d else st.1),
       (if d < 100 then st.2 + vo.getD j 0 * (1 - d / 100) else st.2))) (9999, 0)

/-- One whisker ray: 1.0 when the tip leaves the world or lands in a rock. -/
noncomputable def checkObstacle (w : World) (mx my ma angle_offset : ℝ) : ℝ :=
  let rx := mx + Real.cos (ma + angle_offset) * WHISKER_LEN
  let ry := my + Real.sin (ma + angle_offset) * WHISKER_LEN
  if rx < 0 ∨ rx > w.width ∨ ry < 0 ∨ ry > w.height then 1
  else if ∃ r ∈ w.rocks, hypot (rx - r.1) (ry - r.2.1) < r.2.2 then 1 else 0

/-- 1.0 iff the agent stands inside some mud circle. -/
noncomputable def inMudVal (w : World) (mx my : ℝ) : ℝ :=
  if ∃ m ∈ w.mud, hypot (mx - m.1) (my - m.2.1) < m.2.2 then 1 else 0

noncomputable def foodScan (w : World) (i : ℕ) : ℝ × ℝ × ℕ :=
  scanNearest (w.positions.getD i (0, 0)).1 (w.positions.getD i (0, 0)).2
    (w.angles.getD i 0) w.food 0 (9999, 0, 0)

noncomputable def predScan (w : World) (i : ℕ) : ℝ × ℝ × ℕ :=
  scanNearest (w.positions.getD i (0, 0)).1 (w.positions.getD i (0, 0)).2
    (w.angles.getD i 0) w.predators 0 (9999, 0, 0)

/-- The sensor vector assembled at lib.rs:256 — eleven entries. -/
noncomputable def sensorInputs (w : World) (i : ℕ) : List ℝ :=
  let mx := (w.positions.getD i (0, 0)).1
  let my := (w.positions.getD i (0, 0)).2
  let ma := w.angles.getD i 0
  let fs := foodScan w i
  let ps := predScan w i
  let fr := friendScan w.positions w.voices i mx my
  [min (fs.1 / w.width) 1, Real.sin fs.2.1,
   min (ps.1 / w.width) 1, Real.sin ps.2.1,
   w.energies.getD i 0 / 100,
   min (fr.1 / 200) 1,
   checkObstacle w mx my ma (-0.78), checkObstacle w mx my ma 0, checkObstacle w mx my ma 0.78,
   min fr.2 1,
   inMudVal w mx my]

noncomputable def agentOutputs (w : World) (i : ℕ) : List ℝ :=
  ((w.brains.getD i defaultBrain).process (sensorInputs w i)).2

/-- `outputs[2].max(0.0)`, stored as the agent's voice. -/
noncomputable def agentVoice (w : World) (i : ℕ) : ℝ :=
  max ((agentOutputs w i).getD 2 0) 0

/-- `(outputs[1] + 1.0) * AGENT_SPEED_MODIFIER`, times 0.3 in mud. -/
noncomputable def agentSpeed (w : World) (i : ℕ) : ℝ :=
  let s := ((agentOutputs w i).getD 1 0 + 1) * AGENT_SPEED_MODIFIER
  if inMudVal w (w.positions.getD i (0, 0)).1 (w.positions.getD i (0, 0)).2 > 0 then s * 0.3
  else s

/-- `speed * MOVE_COST`, tripled in mud, plus `voice * 0.1`. -/
noncomputable def moveCost (w : World) (i : ℕ) : ℝ :=
  (if inMudVal w (w.positions.getD i (0, 0)).1 (w.positions.getD i (0, 0)).2 > 0
    then agentSpeed w i * MOVE_COST * 3 else agentSpeed w i * MOVE_COST) + agentVoice w i * 0.1

/-- Energy after the metabolism line `self.energies[i] -= cost`. -/
noncomputable def energyAfterMove (w : World) (i : ℕ) : ℝ :=
  w.energies.getD i 0 - moveCost w i

/-- Energy after the food interaction (add `FOOD_ENERGY`, cap at `ENERGY_CAP`). -/
noncomputable def energyAfterFeed (w : World) (i : ℕ) : ℝ :=
  if (foodScan w i).1 < EAT_RADIUS then
    (if energyAfterMove w i + FOOD_ENERGY > ENERGY_CAP then ENERGY_CAP
     else energyAfterMove w i + FOOD_ENERGY)
  else energyAfterMove w i

/-- Energy after the predator interaction: a warrior pays `BATTLE_COST`; anyone
else within kill radius is forced to the sentinel −10. -/
noncomputable def energyAfterFight (w : World) (i : ℕ) : ℝ :=
  if (predScan w i).1 < PREDATOR_KILL_RADIUS then
    (if energyAfterFeed w i > WARRIOR_THRESHOLD then energyAfterFeed w i - BATTLE_COST else -10)
  else energyAfterFeed w i

/-- The agent-phase body for slot `i` up to and including the predator
interaction (sense, decide, move, clamp, metabolise, feed, fight).  All reads
are of the incoming state, matching the source order. -/
noncomputable def baseUpdate (w : World) (o : AgentOracle) (i : ℕ) : World :=
  let p := w.positions.getD i (0, 0)
  let na := w.angles.getD i 0 + (agentOutputs w i).getD 0 0 * TURN_SPEED
  let nx := p.1 + Real.cos na * agentSpeed w i
  let ny := p.2 + Real.sin na * agentSpeed w i
  let q := if ∃ r ∈ w.rocks, hypot (nx - r.1) (ny - r.2.1) < r.2.2 then p else (nx, ny)
  { w with
      brains := w.brains.set i ((w.brains.getD i defaultBrain).process (sensorInputs w i)).1
      voices := w.voices.set i (agentVoice w i)
      angles := w.angles.set i na
      positions := w.positions.set i (clampCoord w.width q.1, clampCoord w.height q.2)
      energies := w.energies.set i (energyAfterFight w i)
      food := (if (foodScan w i).1 < EAT_RADIUS then
          w.food.set (foodScan w i).2.2 (o.foodR.1 * w.width, o.foodR.2 * w.height)
        else w.food)
      predators := (if (predScan w i).1 < PREDATOR_KILL_RADIUS ∧
            energyAfterFeed w i > WARRIOR_THRESHOLD then
          w.predators.set (predScan w i).2.2 (o.predR.1 * w.width, o.predR.2 * w.height)
        else w.predators) }

/-- `(Math::random() * n as f64) as usize` — saturating, so negative floors to 0. -/
noncomputable def toIdx (r : ℝ) (n : ℕ) : ℕ := (⌊r * (n : ℝ)⌋).toNat

/-- One draw of a tournament: accept the drawn slot `r` when it is not the dying
slot, not the excluded slot, and strictly improves the best energy. -/
noncomputable def tournStep (en : List ℝ) (n i : ℕ) (ex : Option ℕ) (dr : ℕ → ℝ)
    (st : ℕ × ℝ) (k : ℕ) : ℕ × ℝ :=
  if toIdx (dr k) n ≠ i ∧ (∀ e ∈ ex, toIdx (dr k) n ≠ e) ∧ st.2 < en.getD (toIdx (dr k) n) 0
  then (toIdx (dr k) n, en.getD (toIdx (dr k) n) 0) else st

/-- One 5-draw tournament, starting at `(0, -1.0)`. -/
noncomputable def tournament (en : List ℝ) (n i : ℕ) (ex : Option ℕ) (dr : ℕ → ℝ) : ℕ × ℝ :=
  (List.range 5).foldl (tournStep en n i ex dr) (0, -1)

/-- The evolution block: runs only when the slot's energy is ≤ 0 after the
interactions; breeds from two tournament winners when both beat the threshold,
otherwise respawns fresh. -/
noncomputable def evolutionPhase (v : World) (o : AgentOracle) (i n : ℕ) : World :=
  if v.energies.getD i 0 ≤ 0 then
    let t1 := tournament v.energies n i none o.t1
    let t2 := tournament v.energies n i (some t1.1) o.t2
    if t1.2 > v.reproduction_threshold ∧ t2.2 > v.reproduction_threshold then
      let nb := Brain.mutate
        ((v.brains.getD t1.1 defaultBrain).crossover (v.brains.getD t2.1 defaultBrain)
          o.crossNew o.mix1 o.mix2 o.mix3)
        v.mutation_rate o.ms1 o.mp1 o.ms2 o.mp2 o.ms3 o.mp3
      let pp := v.positions.getD t1.1 (0, 0)
      let en1 := v.energies.set i 60
      let en2 := en1.set t1.1 (en1.getD t1.1 0 - 20)
      { v with
          brains := v.brains.set i nb
          colors := v.colors.set i (v.colors.getD t1.1 "")
          positions := v.positions.set i
            (pp.1 + (o.jit.1 - 0.5) * 10, pp.2 + (o.jit.2 - 0.5) * 10)
          energies := en2.set t2.1 (en2.getD t2.1 0 - 20) }
    else
      { v with
          brains := v.brains.set i (Brain.new o.freshNew)
          positions := v.positions.set i (o.freshP.1 * v.width, o.freshP.2 * v.height)
          energies := v.energies.set i 100
          voices := v.voices.set i 0 }
  else v

/-- One full agent-slot update. -/
noncomputable def agentStep (w : World) (o : AgentOracle) (i n : ℕ) : World :=
  evolutionPhase (baseUpdate w o i) o i n

/-- Predator targeting: nearest agent with energy > 0 (strict `<` scan); default
target is the predator's own position. -/
noncomputable def predTarget (w : World) (px py : ℝ) : ℝ × ℝ × ℝ :=
  (List.range w.positions.length).foldl (fun (st : ℝ × ℝ × ℝ) j =>
    if w.energies.getD j 0 ≤ 0 then st
    else
      let p := w.positions.getD j (0, 0)
      let d := hypot (px - p.1) (py - p.2)
      if d < st.1 then (d, p.1, p.2) else st) (999999, px, py)

/-- One predator update: chase the nearest living agent at `predator_speed`
(normalising only when the distance is positive), add pairwise separation,
reject the move wholesale on rock contact, clamp to the walls. -/
noncomputable def predStep (w : World) (i : ℕ) : World :=
  let p := w.predators.getD i (0, 0)
  let t := predTarget w p.1 p.2
  let dist := hypot (t.2.1 - p.1) (t.2.2 - p.2)
  let dx1 := if dist > 0 then (t.2.1 - p.1) / dist * w.predator_speed else t.2.1 - p.1
  let dy1 := if dist > 0 then (t.2.2 - p.2) / dist * w.predator_speed else t.2.2 - p.2
  let sep := (List.range w.predators.length).foldl (fun (st : ℝ × ℝ) k =>
    if k = i then st
    else
      let q := w.predators.getD k (0, 0)
      let sd := hypot (p.1 - q.1) (p.2 - q.2)
      if sd < 30 ∧ sd > 0 then (st.1 + (p.1 - q.1) / sd * 0.8, st.2 + (p.2 - q.2) / sd * 0.8)
      else st) (dx1, dy1)
  let m := if ∃ r ∈ w.rocks, hypot (p.1 + sep.1 - r.1) (p.2 + sep.2 - r.2.1) < r.2.2 then p
    else (p.1 + sep.1, p.2 + sep.2)
  { w with predators := w.predators.set i (clampCoord w.width m.1, clampCoord w.height m.2) }

noncomputable def predAux : ℕ → ℕ → World → World
  | 0, _, w => w
  | fuel + 1, i, w => predAux fuel (i + 1) (predStep w i)

noncomputable def predatorPhase (w : World) : World := predAux w.predators.length 0 w

noncomputable def agentsAux (o : ℕ → AgentOracle) (n : ℕ) : ℕ → ℕ → World → World
  | 0, _, w => w
  | fuel + 1, i, w => agentsAux o n fuel (i + 1) (agentStep w (o i) i n)

/-- `Simulation::step`: predator phase, then the agent phase over slots
`0..positions.len()` in order. -/
noncomputable def stepF (w : World) (o : ℕ → AgentOracle) : World :=
  agentsAux o w.positions.length w.positions.length 0 (predatorPhase w)

/-! ## Claim C1 (sensor vector arity) -/

/-- C1: the sensor vector assembled in the decision phase has exactly 11 entries
— strictly fewer than the 13 indices `Brain::process` reads element-wise — so
the claimed construction-time arity agreement does not hold and the indexing
`inputs[j]`, `j = 0..13`, does go out of bounds (at `j = 11`). -/
theorem sensor_vector_length (w : World) (i : ℕ) :
    (sensorInputs w i).length = 11 ∧ (sensorInputs w i).length < 13 := by
  constructor <;> simp [sensorInputs]

/-! ## Concrete worlds exercising each phase of the tick -/

/-- A fixed in-range oracle: tournament draws 0.1 (slot `⌊0.3⌋ = 0` of three) and
0.5 (slot `⌊1.5⌋ = 1`), jitter draws 0.99 (offset +4.9). -/
noncomputable def okOracle : AgentOracle :=
  ⟨(0.5, 0.5), (0.5, 0.5), (fun _ => 0.1), (fun _ => 0.5), (fun _ => 0.5), (fun _ => 0.5),
   (fun _ => 0.5), (fun _ => 0.5), (fun _ => 0.5), (fun _ => 0.5), (fun _ => 0.5),
   (fun _ => 0.5), (fun _ => 0.5), (fun _ => 0.5), (0.99, 0.99), (fun _ => 0.5), (0.5, 0.5)⟩

/-- The smallest populated world: a single default-brain agent, nothing else. -/
noncomputable def oneAgentWorld : World :=
  ⟨[(0, 0)], [0], [100], [defaultBrain], [""], [0], [], [], [], [], 800, 600, 0.1, 2.2, 60⟩

/-- The all-zero controller: every weight and bias 0, so every output is
`tanh 0 = 0` whatever the inputs. -/
noncomputable def zeroBrain : Brain :=
  ⟨List.replicate 104 0, List.replicate 24 0, List.replicate 11 0,
   List.replicate 13 0, List.replicate 8 0, List.replicate 3 0⟩

/-- Three agents with the all-zero controller, no food/predators/terrain,
`reproduction_threshold` set (through the exposed setter) to 0.  Slots 0 and 1
hold energy 5.3, slot 2 holds 0.2 — a tick, were it to complete, would kill
slot 2 and charge both low-energy parents 20 each. -/
noncomputable def cxWorldEnergy : World :=
  ⟨[(0, 0), (0, 0), (0, 0)], [0, 0, 0], [5.3, 5.3, 0.2], [zeroBrain, zeroBrain, zeroBrain],
   ["", "", ""], [0, 0, 0], [], [], [], [], 800, 600, 0.1, 2.2, 0⟩

/-- Three zero-brain agents, default threshold 60: slots 0 and 1 sit at the far
corner `(800,600)` with energy 100; slot 2 would die and be reborn at parent 0's
corner position plus the post-clamp jitter. -/
noncomputable def cxWorldPos : World :=
  ⟨[(800, 600), (800, 600), (0, 0)], [0, 0, 0], [100, 100, 0.2],
   [zeroBrain, zeroBrain, zeroBrain], ["", "", ""], [0, 0, 0], [], [], [], [], 800, 600,
   0.1, 2.2, 60⟩

/-- The combat scenario world: one warrior-energy agent and one predator on the
same spot. -/
noncomputable def fightWorld : World :=
  ⟨[(0, 0)], [0], [200], [zeroBrain], [""], [0], [], [(0, 0)], [], [], 800, 600, 0.1, 2.2, 60⟩

/-! ## The bounds-checked layer: where the real tick aborts

`Brain.process` above models only the arithmetic of the `j = 0..13` reads;
the Rust reads are bounds-checked, and `inputs[11]` aborts the program when the
slice is shorter.  The definitions below carry that check: `none` is the
index-out-of-bounds abort, and a tick that would abort produces no post-step
state at all. -/

/-- The sensor vector built by the agent phase always has exactly 11 entries. -/
theorem sensorInputs_len (w : World) (i : ℕ) : (sensorInputs w i).length = 11 := by
  simp [sensorInputs]

/-- `Brain::process` with the Rust bounds check explicit: the element reads
`inputs[j]`, `j = 0..13`, are in bounds only when the slice has at least 13
elements; on a shorter slice the program aborts (`none`). -/
noncomputable def Brain.processChecked (b : Brain) (inputs : List ℝ) :
    Option (Brain × List ℝ) :=
  if 13 ≤ inputs.length then some (b.process inputs) else none

/-- The agent-phase body for slot `i` with the decision phase's bounds check:
the slot's update happens only if its `process` call survives. -/
noncomputable def agentStepChecked (w : World) (o : AgentOracle) (i n : ℕ) :
    Option World :=
  match (w.brains.getD i defaultBrain).processChecked (sensorInputs w i) with
  | none => none
  | some _ => some (agentStep w o i n)

noncomputable def agentsAuxChecked (o : ℕ → AgentOracle) (n : ℕ) :
    ℕ → ℕ → World → Option World
  | 0, _, w => some w
  | fuel + 1, i, w =>
    match agentStepChecked w (o i) i n with
    | none => none
    | some v => agentsAuxChecked o n fuel (i + 1) v

/-- `Simulation::step` with the abort explicit: predator phase, then the agent
phase over slots `0..positions.len()`; `none` as soon as a slot's decision
aborts.  `stepF` above is the hypothetical tick that ignores the bounds check. -/
noncomputable def stepChecked (w : World) (o : ℕ → AgentOracle) : Option World :=
  agentsAuxChecked o w.positions.length w.positions.length 0 (predatorPhase w)

/-- Every slot's decision aborts: the sensor vector has 11 < 13 entries, so the
`inputs[11]` read in `Brain::process` is out of bounds on every call the agent
phase makes. -/
theorem agentStepChecked_none (w : World) (o : AgentOracle) (i n : ℕ) :
    agentStepChecked w o i n = none := by
  have h : ¬ 13 ≤ (sensorInputs w i).length := by rw [sensorInputs_len]; omega
  simp [agentStepChecked, Brain.processChecked, h]

/-- A tick with at least one agent never completes: slot 0's decision aborts. -/
theorem stepChecked_none_of_agents (w : World) (o : ℕ → AgentOracle)
    (h : 0 < w.positions.length) : stepChecked w o = none := by
  rw [stepChecked]
  obtain ⟨m, hm⟩ : ∃ m, w.positions.length = m + 1 := ⟨w.positions.length - 1, by omega⟩
  rw [hm]
  rw [agentsAuxChecked, agentStepChecked_none]

/-! ## Claims C2, C3, C8, C10 (properties of the completed tick) -/

/-- C2: the claimed post-step energy bound is about states the program never
produces.  On a populated world — here three agents whose tick would charge two
energy-5.3 parents 20 each — `step` aborts out of bounds at `inputs[11]` in
`Brain::process` during slot 0's decision, before any metabolism, feeding,
combat or parent charge, so no post-step energies exist. -/
theorem step_panics_before_energy_update :
    stepChecked cxWorldEnergy (fun _ => okOracle) = none :=
  stepChecked_none_of_agents _ _ (by simp [cxWorldEnergy])

/-- C3: the claimed post-step position bound is about states the program never
produces.  On this three-agent corner world whose tick would respawn slot 2 at
a jittered corner position, `step` aborts out of bounds at `inputs[11]` in
`Brain::process` during slot 0's decision, before any movement, clamping or
rebirth, so no post-step positions exist. -/
theorem step_panics_before_position_update :
    stepChecked cxWorldPos (fun _ => okOracle) = none :=
  stepChecked_none_of_agents _ _ (by simp [cxWorldPos])

/-- C8: the claimed predator-interaction outcomes are never reached.  On the
combat world — one energy-200 warrior standing on a predator — the slot's own
update aborts out of bounds at `inputs[11]` in `Brain::process` during its
decision phase, which precedes the predator-distance check and both the
`BATTLE_COST` and sentinel writes. -/
theorem combat_slot_panics_in_decision :
    agentStepChecked fightWorld okOracle 0 1 = none :=
  agentStepChecked_none _ _ _ _

/-- C10: the claimed post-step voice clamp is about states the program never
produces.  Even on the smallest populated world, `step` aborts out of bounds at
`inputs[11]` in `Brain::process` during slot 0's decision, before the
`outputs[2].max(0.0)` voice write, so no post-step voices exist. -/
theorem step_panics_before_voice_update :
    stepChecked oneAgentWorld (fun _ => okOracle) = none :=
  stepChecked_none_of_agents _ _ (by simp [oneAgentWorld])

end LifeSim
